import Mathlib

/-
Shallow embedding of the content-repository core of the `lambda-back`
repository (serverless CRUD handlers over a single DynamoDB table).

Embedded source files:
  src/layers/common-layer/python/common/categories.py
  src/layers/common-layer/python/common/repositories.py
  src/layers/common-layer/python/common/base_crud.py
  src/layers/common-layer/python/common/utils.py
  src/layers/common-layer/python/common/error_handlers.py
  src/layers/common-layer/python/common/s3_service.py

Python dicts are modelled as association lists with first-match lookup and
update-in-place-or-append insertion, which reproduces Python dict literal,
`d[k] = v` and `setdefault` semantics.  The DynamoDB table is a list of
records keyed by the "id" attribute (keys are unique in a real table).
Nondeterministic inputs of the code (generated UUIDs, the current time)
are passed to the embedded functions as explicit arguments.
-/

set_option autoImplicit false

namespace LambdaBack

/-- Scalar attribute values stored in items (Python str/int/bool/None). -/
inductive Value where
  | str (s : String)
  | int (n : Int)
  | bool (b : Bool)
  | null
deriving DecidableEq, Repr

/-- Python dict with string keys, modelled as an association list. -/
abbrev Dict := List (String × Value)

/-- First-match lookup, i.e. Python `d.get(k)` (`None` when absent). -/
def dictGet {β : Type} : List (String × β) → String → Option β
  | [], _ => none
  | (k, v) :: rest, key => if k = key then some v else dictGet rest key

/-- Python `d[k] = v`: update the existing entry in place, else append. -/
def dictSet {β : Type} : List (String × β) → String → β → List (String × β)
  | [], key, val => [(key, val)]
  | (k, v) :: rest, key, val =>
      if k = key then (k, val) :: rest else (k, v) :: dictSet rest key val

/-- Left-to-right sequence of `d[k] = v` assignments; a Python dict literal
with defaults followed by `**data` is `dictSetMany defaults data`. -/
def dictSetMany {β : Type} (d : List (String × β)) (pairs : List (String × β)) :
    List (String × β) :=
  pairs.foldl (fun acc p => dictSet acc p.1 p.2) d

/-- Python `d.setdefault(k, v)`. -/
def dictSetdefault {β : Type} (d : List (String × β)) (key : String) (val : β) :
    List (String × β) :=
  match dictGet d key with
  | some _ => d
  | none => dictSet d key val

/-- Python `d.get(k, dflt)`. -/
def dictGetD (d : Dict) (key : String) (dflt : Value) : Value :=
  (dictGet d key).getD dflt

/-- String content of a field, empty for a missing field (the embedded code
only ever stores strings in the fields read this way). -/
def dictGetStr (d : Dict) (key : String) : String :=
  match dictGet d key with
  | some (.str s) => s
  | _ => ""

/-- Keys of a dict are pairwise distinct; every association list that stands
for an actual Python dict satisfies this. -/
def DictWF {β : Type} (d : List (String × β)) : Prop :=
  (d.map Prod.fst).Nodup

instance dictWFDecidable {β : Type} (d : List (String × β)) : Decidable (DictWF d) :=
  inferInstanceAs (Decidable (d.map Prod.fst).Nodup)

/-!
Category registry (`common/categories.py`).

`CATEGORY_DEFINITIONS` maps the content types `news` and `gallery` to their
allowed-category lists; `get_allowed_categories` resolves
`ContentType(content_type.lower())` and returns `[]` for an unknown type
(`ValueError`/`KeyError` are caught).
-/

def newsCategories : List String :=
  ["센터소식", "프로그램소식", "행사소식", "생활정보", "기타"]

def galleryCategories : List String :=
  ["공지사항", "질문", "건의", "참고자료", "기타", "세미나", "일정"]

/-- Python `str.lower()`, written as a per-character map so that it reduces
in the kernel. ASCII letters are lowered; Korean syllables (the only other
characters appearing here) have no case in Python either. -/
def pyLower (s : String) : String :=
  ⟨s.data.map Char.toLower⟩

/-- Embeds `get_allowed_categories`. -/
def getAllowedCategories (contentType : String) : List String :=
  if pyLower contentType = "news" then newsCategories
  else if pyLower contentType = "gallery" then galleryCategories
  else []

/-- Embeds `validate_category_value`: empty category is allowed, otherwise
membership in the allowed list. -/
def validateCategoryValue (contentType category : String) : Bool :=
  if category = "" then true
  else decide (category ∈ getAllowedCategories contentType)

/-!
DynamoDB table model.  The shared single table holds the records of every
content type; its primary key is the `id` attribute, so keys are unique.
-/

/-- The shared table: one record per item, keyed by the "id" attribute. -/
abbrev Store := List Dict

/-- Does the record carry the given primary key? -/
def hasId (r : Dict) (itemId : String) : Bool :=
  dictGet r "id" == some (Value.str itemId)

/-- Embeds `table.get_item(Key=...)`: the record with the given key. -/
def storeLookup (s : Store) (itemId : String) : Option Dict :=
  s.find? (fun r => hasId r itemId)

/-- Embeds `table.put_item(Item=item)`: replace the record sharing the
item's key, else append the item. -/
def storePut : Store → Dict → Store
  | [], r => [r]
  | x :: rest, r =>
      if dictGet x "id" == dictGet r "id" then r :: rest else x :: storePut rest r

/-- Embeds `table.delete_item(Key=...)`: drop the record with the key
(keys are unique in a real table, so at most one record is dropped). -/
def storeErase (s : Store) (itemId : String) : Store :=
  s.filter (fun r => !hasId r itemId)

/-- Embeds `table.update_item(Key=..., UpdateExpression='SET ...')`:
apply the `SET` clauses to the record with the key. -/
def storeUpdateRecord (s : Store) (itemId : String) (clauses : List (String × Value)) :
    Store :=
  s.map (fun r => if hasId r itemId then dictSetMany r clauses else r)

/-- Field of the record stored under a key, if any. -/
def storeFieldOf (s : Store) (itemId k : String) : Option Value :=
  (storeLookup s itemId).bind (fun r => dictGet r k)

/-!
Content repository (`common/repositories.py`, class `BaseRepository` with
its two concrete subclasses `NewsRepository` and `GalleryRepository`).
The two subclasses pass `content_type = "news"` / `"gallery"` and provide
literally identical `_get_updatable_fields`, `_clean_item_data` and
`_clean_output_data` implementations, so the subclass hooks are embedded
once and the content type stays a parameter.
-/

/-- Embeds `_get_updatable_fields` (identical for news and gallery). -/
def updatableFields : List String :=
  ["title", "content", "category", "image_url", "short_description"]

/-- Embeds `_clean_item_data` (identical for news and gallery): default the
optional text fields to the empty string. -/
def cleanItemData (d : Dict) : Dict :=
  dictSetdefault (dictSetdefault d "image_url" (.str ""))
    "short_description" (.str "")

/-- The `date` output field: `created_at` truncated at the first 'T'
(`data.get('created_at', '').split('T')[0] if data.get('created_at') else ''`). -/
def dateOf (d : Dict) : String :=
  let s := dictGetStr d "created_at"
  if s = "" then "" else s.data.takeWhile (· ≠ 'T') |> List.asString

/-- Embeds `_clean_output_data` (identical for news and gallery): the fixed
output projection of a stored record. -/
def cleanOutputData (d : Dict) : Dict :=
  [("id", dictGetD d "id" (.str "")),
   ("title", dictGetD d "title" (.str "")),
   ("content", dictGetD d "content" (.str "")),
   ("category", dictGetD d "category" (.str "")),
   ("created_at", dictGetD d "created_at" (.str "")),
   ("updated_at", dictGetD d "updated_at" (.str "")),
   ("status", dictGetD d "status" (.str "")),
   ("image_url", dictGetD d "image_url" (.str "")),
   ("short_description", dictGetD d "short_description" (.str "")),
   ("date", .str (dateOf d))]

/-- The item dict built inside `BaseRepository.create_item`: the generated
defaults first, `**data` last, then `_clean_item_data` fills the optional
text defaults. -/
def createdRecord (contentType itemId now : String) (data : Dict) : Dict :=
  cleanItemData (dictSetMany
    [("id", .str itemId),
     ("content_type", .str contentType),
     ("created_at", .str now),
     ("updated_at", .str now),
     ("status", .str "published")]
    data)

/-- Embeds `BaseRepository.create_item`.  `genId` stands for the
`str(uuid.uuid4())` draw and `now` for `datetime.utcnow().isoformat()+'Z'`;
a falsy `item_id` argument (absent or empty) is replaced by the generated
id.  Returns the id the function returns together with the new table
state. -/
def createItem (contentType genId now : String) (data : Dict)
    (itemIdArg : Option String) (store : Store) : String × Store :=
  let itemId := match itemIdArg with
    | none => genId
    | some s => if s = "" then genId else s
  (itemId, storePut store (createdRecord contentType itemId now data))

/-- Embeds `BaseRepository.get_item_by_id`: fetch by key, return `None`
when the record is missing or its `content_type` is not this repository's
scope, else the cleaned output projection. -/
def getItemById (contentType : String) (store : Store) (itemId : String) :
    Option Dict :=
  match storeLookup store itemId with
  | none => none
  | some item =>
      if dictGet item "content_type" == some (.str contentType) then
        some (cleanOutputData item)
      else
        none

/-- Embeds `BaseRepository.update_item`: `False` when the item is not in
scope; otherwise a `SET` expression built from `updated_at` plus the
whitelisted fields present in `data`, short-circuiting to `True` with no
write when only `updated_at` would be set. -/
def updateItem (contentType now : String) (store : Store) (itemId : String)
    (data : Dict) : Bool × Store :=
  match getItemById contentType store itemId with
  | none => (false, store)
  | some _ =>
      let updates := updatableFields.filterMap
        (fun f => (dictGet data f).map (fun v => (f, v)))
      if updates.isEmpty then (true, store)
      else (true, storeUpdateRecord store itemId (("updated_at", .str now) :: updates))

/-- Embeds `BaseRepository.delete_item`: `False` when the item is not in
scope, else remove the record and return `True`. -/
def deleteItem (contentType : String) (store : Store) (itemId : String) :
    Bool × Store :=
  match getItemById contentType store itemId with
  | none => (false, store)
  | some _ => (true, storeErase store itemId)

/-!
Python's `items.sort(key=lambda x: x.get('created_at', ''), reverse=True)`
is a stable sort descending by the `created_at` string (string comparison
is lexicographic on code points).  A stable insertion sort computes the
same (unique) stable descending ordering and reduces in the kernel.
-/

/-- Lexicographic code-point comparison of character lists (`<` on Python
strings). -/
def charListLt : List Char → List Char → Bool
  | _, [] => false
  | [], _ :: _ => true
  | a :: as, b :: bs =>
      if a.toNat < b.toNat then true
      else if b.toNat < a.toNat then false
      else charListLt as bs

/-- Python string `<`. -/
def strLtB (a b : String) : Bool := charListLt a.data b.data

/-- Sort key used by both listing implementations. -/
def createdKey (d : Dict) : String := dictGetStr d "created_at"

/-- Insert into a descending-by-`created_at` list, after strictly greater
keys and before equal ones (preserving stability). -/
def insertDesc (x : Dict) : List Dict → List Dict
  | [] => [x]
  | y :: ys =>
      if strLtB (createdKey x) (createdKey y) then y :: insertDesc x ys
      else x :: y :: ys

/-- Stable sort, descending by `created_at`. -/
def pySortByCreatedDesc : List Dict → List Dict
  | [] => []
  | x :: xs => insertDesc x (pySortByCreatedDesc xs)

/-- Result shape of `BaseRepository.list_items`. -/
structure RepoListResult where
  items : List Dict
  next_key : Option String
  total : Nat
deriving DecidableEq, Repr

/-- Does a scanned record pass the repository scan filter
(`Attr('content_type').eq(...)`, optionally `& Attr('category').eq(...)`;
the category filter is only added for a truthy category argument)? -/
def repoScanFilter (contentType : String) (category : Option String) (r : Dict) : Bool :=
  (dictGet r "content_type" == some (.str contentType)) &&
    (match category with
     | none => true
     | some c => if c = "" then true else dictGet r "category" == some (.str c))

/-- Embeds `BaseRepository.list_items`.  The DynamoDB `scan` call examines
at most `Limit` records in table order, starting after `ExclusiveStartKey`,
applies the filter expression afterwards, and reports a
`LastEvaluatedKey` when the scan stopped before the end of the table.
The matching records are projected with `_clean_output_data`, sorted
descending by `created_at`, and returned with
`next_key = LastEvaluatedKey.id` and `total = len(items)`. -/
def repoListItems (contentType : String) (store : Store) (limit : Nat)
    (category : Option String) (lastKey : Option String) : RepoListResult :=
  let startIdx : Nat := match lastKey with
    | none => 0
    | some k =>
        match store.findIdx? (fun r => hasId r k) with
        | some i => i + 1
        | none => store.length
  let remaining := store.drop startIdx
  let segment := remaining.take limit
  let scanned := segment.filter (repoScanFilter contentType category)
  let items := pySortByCreatedDesc (scanned.map cleanOutputData)
  let nextKey : Option String :=
    if limit < remaining.length then
      (segment.getLast?).bind (fun r =>
        match dictGet r "id" with
        | some (.str s) => some s
        | _ => none)
    else none
  { items := items, next_key := nextKey, total := items.length }

/-- Embeds `BaseRepository.get_recent_items`:
`list_items(limit=limit)['items'][:limit]`. -/
def repoGetRecentItems (contentType : String) (store : Store) (limit : Nat) :
    List Dict :=
  (repoListItems contentType store limit none none).items.take limit

/-!
Content service (`common/base_crud.py`, class `BaseCRUDService`) and the
pagination helpers (`common/utils.py`, `common/error_handlers.py`).
Python exceptions reaching the caller are modelled with `Except`.
-/

/-- Exceptions the embedded service code can raise. -/
inductive PyErr where
  | zeroDivisionError
  | validationError (msg : String)
deriving DecidableEq, Repr

instance {ε α : Type} [DecidableEq ε] [DecidableEq α] : DecidableEq (Except ε α)
  | .error e, .error f =>
      if h : e = f then isTrue (by rw [h]) else isFalse (by simp [h])
  | .error _, .ok _ => isFalse (fun h => Except.noConfusion h)
  | .ok _, .error _ => isFalse (fun h => Except.noConfusion h)
  | .ok a, .ok b =>
      if h : a = b then isTrue (by rw [h]) else isFalse (by simp [h])

/-- Python slice `l[a:b]` with possibly negative bounds. -/
def pySlice {α : Type} (l : List α) (a b : Int) : List α :=
  let n : Int := l.length
  let norm : Int → Nat := fun x => if x < 0 then (n + x).toNat else min x.toNat l.length
  let s := norm a
  let e := norm b
  (l.drop s).take (e - s)

/-- The `pagination` sub-dict produced by `paginate_list`. -/
structure Pagination where
  current_page : Int
  total_pages : Int
  total_count : Int
  limit : Int
  has_next : Bool
  has_prev : Bool
deriving DecidableEq, Repr

/-- Result shape of `paginate_list`. -/
structure PageResult (α : Type) where
  items : List α
  pagination : Pagination
deriving DecidableEq, Repr

/-- Embeds `utils.paginate_list`.  Python `//` is floor division
(`Int.fdiv`); a `limit` of `0` raises `ZeroDivisionError`. -/
def paginateList {α : Type} (items : List α) (page limit : Int) :
    Except PyErr (PageResult α) :=
  if limit = 0 then .error .zeroDivisionError
  else
    let totalCount : Int := items.length
    let totalPages : Int := (totalCount + limit - 1).fdiv limit
    let offset : Int := (page - 1) * limit
    .ok { items := pySlice items offset (offset + limit),
          pagination :=
            { current_page := page,
              total_pages := totalPages,
              total_count := totalCount,
              limit := limit,
              has_next := decide (page < totalPages),
              has_prev := decide (page > 1) } }

/-- The list `BaseCRUDService.list_items` builds before paginating: the
scan has no `Limit` and filters by `content_type` when the service carries
one, then the code keeps only `status == 'published'` records, applies the
truthy-category filter and sorts descending by `created_at`. -/
def crudFilteredSorted (contentType : Option String) (store : Store)
    (category : Option String) : List Dict :=
  let items0 := match contentType with
    | some ct => store.filter (fun r => dictGet r "content_type" == some (Value.str ct))
    | none => store
  let published := items0.filter (fun r => dictGet r "status" == some (Value.str "published"))
  let catFiltered := match category with
    | none => published
    | some c =>
        if c = "" then published
        else published.filter (fun r => dictGet r "category" == some (Value.str c))
  pySortByCreatedDesc catFiltered

/-- Embeds `BaseCRUDService.list_items`: paginate the filtered, sorted
scan result.  The storage collaborator is embedded as the total function
reading `store`, so the `except` fallback branch
(`paginate_list(sample_data, page, limit)`) is reached exactly when
`paginate_list` itself raised, and then raises again identically. -/
def crudListItems (contentType : Option String) (store : Store)
    (sample : List Dict) (page limit : Int) (category : Option String) :
    Except PyErr (PageResult Dict) :=
  match paginateList (crudFilteredSorted contentType store category) page limit with
  | .ok r => .ok r
  | .error _ => paginateList sample page limit

/-- Embeds `BaseCRUDService.get_recent_items`:
`list_items(page=1, limit=limit, category=category)['items']`, falling back
to `sample_data[:limit]` when that raised. -/
def crudGetRecentItems (contentType : Option String) (store : Store)
    (sample : List Dict) (limit : Int) (category : Option String) : List Dict :=
  match crudListItems contentType store sample 1 limit category with
  | .ok r => r.items
  | .error _ => pySlice sample 0 limit

/-- Embeds `error_handlers.validate_pagination_params` on integer inputs
(`None` stands for an absent parameter; the string-parsing branch of the
Python function is outside this model).  A falsy value — `None` or `0` —
falls back to the default (`1` or `10`); a remaining value below `1`
raises `ValidationError`; a limit above `50` is clamped to `50`. -/
def validatePaginationParams (page limit : Option Int) :
    Except PyErr (Int × Int) :=
  let pageInt : Int := match page with
    | none => 1
    | some p => if p = 0 then 1 else p
  let limitInt : Int := match limit with
    | none => 10
    | some l => if l = 0 then 10 else l
  if pageInt < 1 then .error (.validationError "Page must be greater than 0")
  else if limitInt < 1 then .error (.validationError "Limit must be greater than 0")
  else .ok (pageInt, if limitInt > 50 then 50 else limitInt)

/-!
S3 file service (`common/s3_service.py`, class `S3Service`).  URLs and keys
are modelled as character lists; `bucket` is the deployment's configured
`bucket_name`.
-/

/-- Python `s.split(sep, 1)` on a found separator: the first occurrence of
`pat` in `l` splits `l` into the part before it and the part after it;
`none` when `pat` does not occur (Python `sep in s` is false). -/
def splitOnce : List Char → List Char → Option (List Char × List Char)
  | l, pat =>
    if pat.isPrefixOf l then some ([], l.drop pat.length)
    else
      match l with
      | [] => none
      | c :: rest => (splitOnce rest pat).map (fun p => (c :: p.1, p.2))

/-- Python `pat in l` (substring containment). -/
def containsSub (l pat : List Char) : Bool := (splitOnce l pat).isSome

/-- The fixed host part of the virtual-hosted URL form,
`".s3.amazonaws.com/"`. -/
def s3HostMarker : List Char := ".s3.amazonaws.com/".data

/-- Embeds `S3Service.extract_file_key_from_url`: a falsy URL gives `None`;
if `f"{bucket}.s3.amazonaws.com/"` occurs in the URL the key is everything
after its first occurrence; else likewise for
`f"s3.amazonaws.com/{bucket}/"`; else `None`. -/
def extractFileKeyFromUrl (bucket url : List Char) : Option (List Char) :=
  if url = [] then none
  else
    match splitOnce url (bucket ++ s3HostMarker) with
    | some (_, rest) => some rest
    | none =>
        match splitOnce url ("s3.amazonaws.com/".data ++ bucket ++ ['/']) with
        | some (_, rest) => some rest
        | none => none

/-- Embeds the file-key construction of
`S3Service.generate_presigned_upload_url`:
`f"{folder}/{timestamp}_{unique_id}{file_extension}"`, where a truthy
extension is prefixed with a dot unless it already starts with one and a
falsy (absent or empty) extension is omitted. -/
def genFileKey (folder timestamp uniqueId : List Char) (ext : Option (List Char)) :
    List Char :=
  let extPart := match ext with
    | none => []
    | some e =>
        if e = [] then []
        else if e.head? = some '.' then e else '.' :: e
  folder ++ '/' :: (timestamp ++ '_' :: (uniqueId ++ extPart))

/-- The object URL the same function returns:
`f"https://{self.bucket_name}.s3.amazonaws.com/{file_key}"`. -/
def fileUrlFor (bucket fileKey : List Char) : List Char :=
  "https://".data ++ bucket ++ s3HostMarker ++ fileKey

/-- Both fields of `generate_presigned_upload_url` that matter here:
the generated `file_key` and the returned `file_url`. -/
def generatePresignedUploadUrl (bucket folder timestamp uniqueId : List Char)
    (ext : Option (List Char)) : List Char × List Char :=
  let key := genFileKey folder timestamp uniqueId ext
  (key, fileUrlFor bucket key)

/-- Modelled from the spec: a URL matches the
`https://BUCKET.HOST/KEY` virtual-hosted pattern of this deployment
(host `s3.amazonaws.com`) when it is that prefix followed by some key. -/
def matchesVirtualHostPattern (bucket url : List Char) : Bool :=
  ("https://".data ++ bucket ++ s3HostMarker).isPrefixOf url

/-- Modelled from the spec: a URL matches the `https://HOST/BUCKET/KEY`
path-style pattern of this deployment. -/
def matchesPathStylePattern (bucket url : List Char) : Bool :=
  ("https://s3.amazonaws.com/".data ++ bucket ++ ['/']).isPrefixOf url

/-- Response of the `delete_objects` storage call: the per-key `Deleted`
and `Errors` entries; an `Except.error` stands for a `ClientError` raised
by the call. -/
structure S3DeleteResponse where
  deleted : List String
  errors : List String
deriving DecidableEq, Repr

/-- Embeds `S3Service.delete_files`.  An empty key list returns the empty
map at once.  Otherwise the first 1000 keys are submitted; `Deleted`
entries are recorded `True`, `Errors` entries `False`, every submitted-but
unreported key is filled in as `False`, and a `ClientError` marks every
key `False`. -/
def deleteFiles (fileKeys : List String) (resp : Except Unit S3DeleteResponse) :
    List (String × Bool) :=
  if fileKeys = [] then []
  else
    match resp with
    | .error _ => fileKeys.foldl (fun acc k => dictSet acc k false) []
    | .ok r =>
        let results := r.deleted.foldl (fun acc k => dictSet acc k true) []
        let results := r.errors.foldl (fun acc k => dictSet acc k false) results
        fileKeys.foldl
          (fun acc k =>
            match dictGet acc k with
            | some _ => acc
            | none => dictSet acc k false)
          results

/-!
Concrete fixtures used by the witness and counterexample theorems below.
-/

/-- A published news record as stored in the table. -/
def pubRec : Dict :=
  [("id", .str "p1"), ("content_type", .str "news"),
   ("title", .str "hello"), ("content", .str "body"),
   ("status", .str "published"),
   ("created_at", .str "2025-01-02T03:04:05Z"),
   ("updated_at", .str "2025-01-02T03:04:05Z")]

/-- A draft news record as stored in the table. -/
def draftRec : Dict :=
  [("id", .str "d1"), ("content_type", .str "news"),
   ("title", .str "draft title"), ("content", .str "draft body"),
   ("status", .str "draft"),
   ("created_at", .str "2025-01-01T00:00:00Z"),
   ("updated_at", .str "2025-01-01T00:00:00Z")]

/-- Gallery creation input carrying the type-specific passthrough fields. -/
def galleryData : Dict :=
  [("title", .str "t"), ("content", .str "c"),
   ("file_url", .str "https://b.s3.amazonaws.com/up/x.jpg"),
   ("file_name", .str "x.jpg"), ("file_size", .int 123)]

/-- The keys of the fixed output projection `_clean_output_data` emits. -/
def outputFields : List String :=
  ["id", "title", "content", "category", "created_at", "updated_at",
   "status", "image_url", "short_description", "date"]

/-- Creation input that carries its own `id` key. -/
def dataWithId : Dict := [("id", .str "custom"), ("title", .str "t")]

/-- Sixty published news records (for the pagination counterexample). -/
def sixtyNews : Store :=
  (List.range 60).map (fun i =>
    [("id", .str (toString i)), ("content_type", .str "news"),
     ("status", .str "published"),
     ("created_at", .str "2025-01-01T00:00:00Z")])

/-! Basic dict lemmas. -/

theorem dictGet_dictSet_self {β : Type} (d : List (String × β)) (k : String) (v : β) :
    dictGet (dictSet d k v) k = some v := by
  induction d with
  | nil => simp [dictSet, dictGet]
  | cons p rest ih =>
      by_cases h : p.1 = k <;> simp [dictSet, dictGet, h, ih]

theorem dictGet_dictSet_ne {β : Type} (d : List (String × β)) (k k' : String) (v : β)
    (h : k ≠ k') : dictGet (dictSet d k v) k' = dictGet d k' := by
  induction d with
  | nil => simp [dictSet, dictGet, h]
  | cons p rest ih =>
      by_cases hp : p.1 = k
      · subst hp
        simp [dictSet, dictGet, h]
      · by_cases hp' : p.1 = k'
        · subst hp'
          simp [dictSet, dictGet, hp]
        · simp [dictSet, dictGet, hp, hp', ih]

theorem dictGet_eq_none_of_not_mem {β : Type} (pairs : List (String × β)) (k : String)
    (h : k ∉ pairs.map Prod.fst) : dictGet pairs k = none := by
  induction pairs with
  | nil => rfl
  | cons p rest ih =>
      have hp : p.1 ≠ k := fun e => h (by simp [e])
      have hr : k ∉ rest.map Prod.fst := fun e => h (by simp [e])
      simp [dictGet, hp, ih hr]

theorem dictGet_dictSetMany {β : Type} (pairs : List (String × β)) (d : List (String × β))
    (k : String) (hwf : DictWF pairs) :
    dictGet (dictSetMany d pairs) k = (dictGet pairs k).or (dictGet d k) := by
  induction pairs generalizing d with
  | nil => simp [dictSetMany, dictGet]
  | cons p rest ih =>
      have hwf' : DictWF rest :=
        (List.nodup_cons.mp (by simpa [DictWF] using hwf)).2
      have hnotin : p.1 ∉ rest.map Prod.fst :=
        (List.nodup_cons.mp (by simpa [DictWF] using hwf)).1
      have step : dictSetMany d (p :: rest) = dictSetMany (dictSet d p.1 p.2) rest := by
        simp [dictSetMany]
      rw [step, ih _ hwf']
      by_cases hk : p.1 = k
      · subst hk
        simp [dictGet, dictGet_eq_none_of_not_mem rest p.1 hnotin,
          dictGet_dictSet_self]
      · simp [dictGet, hk, dictGet_dictSet_ne d p.1 k p.2 hk]

theorem dictGet_dictSetdefault {β : Type} (d : List (String × β)) (a k : String) (v : β) :
    dictGet (dictSetdefault d a v) k =
      (dictGet d k).or (if k = a then some v else none) := by
  unfold dictSetdefault
  cases ha : dictGet d a with
  | some w =>
      by_cases hk : k = a
      · subst hk; simp [ha]
      · simp only [if_neg hk, Option.or_none]
  | none =>
      by_cases hk : k = a
      · subst hk; simp [ha, dictGet_dictSet_self]
      · simp only [if_neg hk, Option.or_none,
          dictGet_dictSet_ne d a k v (fun h => hk h.symm)]


theorem mem_insertDesc (a x : Dict) (l : List Dict) :
    a ∈ insertDesc x l ↔ a = x ∨ a ∈ l := by
  induction l with
  | nil => simp [insertDesc]
  | cons y ys ih =>
      by_cases h : strLtB (createdKey x) (createdKey y) = true
      · simp only [insertDesc, if_pos h, List.mem_cons, ih]
        tauto
      · simp only [insertDesc, if_neg h, List.mem_cons]

theorem mem_pySortByCreatedDesc (a : Dict) (l : List Dict) :
    a ∈ pySortByCreatedDesc l ↔ a ∈ l := by
  induction l with
  | nil => simp [pySortByCreatedDesc]
  | cons x xs ih => simp [pySortByCreatedDesc, mem_insertDesc, ih]


theorem dictGet_dictSetMany_not_mem {β : Type} (pairs : List (String × β))
    (d : List (String × β)) (k : String) (h : k ∉ pairs.map Prod.fst) :
    dictGet (dictSetMany d pairs) k = dictGet d k := by
  induction pairs generalizing d with
  | nil => rfl
  | cons p rest ih =>
      have hp : k ≠ p.1 := fun e => h (by simp [e])
      have hr : k ∉ rest.map Prod.fst := fun e => h (by simp [e])
      have step : dictSetMany d (p :: rest) = dictSetMany (dictSet d p.1 p.2) rest := by
        simp [dictSetMany]
      rw [step, ih _ hr, dictGet_dictSet_ne d p.1 k p.2 (fun e => hp e.symm)]

theorem isSome_dictGet_dictSet {β : Type} (d : List (String × β)) (a k : String) (v : β)
    (h : (dictGet d k).isSome = true) : (dictGet (dictSet d a v) k).isSome = true := by
  by_cases ha : a = k
  · subst ha; simp [dictGet_dictSet_self]
  · rwa [dictGet_dictSet_ne d a k v ha]

theorem dictGet_foldl_set_const {β : Type} (l : List String)
    (acc : List (String × β)) (v : β) (k : String) :
    dictGet (l.foldl (fun a k' => dictSet a k' v) acc) k =
      if k ∈ l then some v else dictGet acc k := by
  induction l generalizing acc with
  | nil => simp
  | cons x xs ih =>
      rw [List.foldl_cons, ih]
      by_cases hx : k ∈ xs
      · simp [hx]
      · by_cases hk : x = k
        · subst hk; simp [hx, dictGet_dictSet_self]
        · simp [hx, hk, Ne.symm hk, dictGet_dictSet_ne acc x k v hk]

/-! Store lemmas. -/

theorem hasId_eq_true (r : Dict) (i : String)
    (hr : dictGet r "id" = some (Value.str i)) : hasId r i = true := by
  simp [hasId, hr]

theorem hasId_eq_false_of_ne (r : Dict) (i j : String)
    (hr : dictGet r "id" = some (Value.str j)) (hij : j ≠ i) :
    hasId r i = false := by
  apply Bool.eq_false_iff.mpr
  intro hc
  have h1 : dictGet r "id" = some (Value.str i) := beq_iff_eq.mp hc
  rw [hr] at h1
  exact hij (by simpa using Option.some.inj h1)

theorem storeLookup_cons (x : Dict) (rest : Store) (i : String) :
    storeLookup (x :: rest) i = if hasId x i then some x else storeLookup rest i := by
  by_cases h : hasId x i = true
  · rw [if_pos h]
    exact List.find?_cons_of_pos rest h
  · rw [if_neg h]
    exact List.find?_cons_of_neg rest h

theorem storePut_cons (x : Dict) (rest : Store) (r : Dict) :
    storePut (x :: rest) r =
      if (dictGet x "id" == dictGet r "id") = true then r :: rest
      else x :: storePut rest r := by
  by_cases h : (dictGet x "id" == dictGet r "id") = true <;>
    simp [storePut, h]

theorem storeLookup_hasId (s : Store) (i : String) (r : Dict)
    (h : storeLookup s i = some r) : hasId r i = true := by
  have h2 := @List.find?_some Dict (fun x => hasId x i) r s h
  simpa using h2

theorem storeLookup_storePut_self (s : Store) (r : Dict) (i : String)
    (hr : dictGet r "id" = some (Value.str i)) :
    storeLookup (storePut s r) i = some r := by
  have hri : hasId r i = true := hasId_eq_true r i hr
  induction s with
  | nil =>
      show storeLookup [r] i = some r
      rw [storeLookup_cons, if_pos hri]
  | cons x rest ih =>
      rw [storePut_cons]
      by_cases hx : (dictGet x "id" == dictGet r "id") = true
      · rw [if_pos hx, storeLookup_cons, if_pos hri]
      · have hxid : ¬ hasId x i = true := by
          intro hc
          exact hx (beq_iff_eq.mpr (by rw [beq_iff_eq.mp hc, hr]))
        rw [if_neg hx, storeLookup_cons, if_neg hxid]
        exact ih

theorem storeLookup_storePut_ne (s : Store) (r : Dict) (i j : String)
    (hr : dictGet r "id" = some (Value.str j)) (hij : i ≠ j) :
    storeLookup (storePut s r) i = storeLookup s i := by
  have hri : hasId r i = false :=
    hasId_eq_false_of_ne r i j hr (fun e => hij e.symm)
  induction s with
  | nil =>
      show storeLookup [r] i = storeLookup [] i
      rw [storeLookup_cons, if_neg (by simp [hri])]
  | cons x rest ih =>
      rw [storePut_cons]
      by_cases hx : (dictGet x "id" == dictGet r "id") = true
      · have hxid : hasId x i = false := by
          apply Bool.eq_false_iff.mpr
          intro hc
          have h1 : dictGet x "id" = some (Value.str i) := beq_iff_eq.mp hc
          have h2 : dictGet x "id" = dictGet r "id" := beq_iff_eq.mp hx
          rw [h2, hr] at h1
          exact hij (by simpa using (Option.some.inj h1).symm)
        rw [if_pos hx, storeLookup_cons, if_neg (by simp [hri]),
          storeLookup_cons, if_neg (by simp [hxid])]
      · rw [if_neg hx, storeLookup_cons, storeLookup_cons, ih]

theorem storeLookup_storeErase_self (s : Store) (i : String) :
    storeLookup (storeErase s i) i = none := by
  induction s with
  | nil => rfl
  | cons x rest ih =>
      by_cases hx : hasId x i = true
      · have : storeErase (x :: rest) i = storeErase rest i := by
          simp [storeErase, List.filter_cons, hx]
        rw [this]
        exact ih
      · have hx' : hasId x i = false := by simpa using hx
        have : storeErase (x :: rest) i = x :: storeErase rest i := by
          simp [storeErase, List.filter_cons, hx']
        rw [this, storeLookup_cons, if_neg hx]
        exact ih

theorem storeLookup_storeUpdateRecord (s : Store) (i j : String)
    (cl : List (String × Value)) (hcl : "id" ∉ cl.map Prod.fst) :
    storeLookup (storeUpdateRecord s i cl) j =
      (storeLookup s j).map (fun r => if hasId r i then dictSetMany r cl else r) := by
  induction s with
  | nil => rfl
  | cons x rest ih =>
      have hpres : hasId (if hasId x i then dictSetMany x cl else x) j = hasId x j := by
        by_cases hx : hasId x i = true
        · rw [if_pos hx]
          show (dictGet (dictSetMany x cl) "id" == some (Value.str j)) =
            (dictGet x "id" == some (Value.str j))
          rw [dictGet_dictSetMany_not_mem cl x "id" hcl]
        · rw [if_neg hx]
      have hstep : storeUpdateRecord (x :: rest) i cl =
          (if hasId x i then dictSetMany x cl else x) :: storeUpdateRecord rest i cl := by
        simp [storeUpdateRecord]
      rw [hstep, storeLookup_cons, storeLookup_cons, hpres]
      by_cases hxj : hasId x j = true
      · rw [if_pos hxj, if_pos hxj]
        rfl
      · rw [if_neg hxj, if_neg hxj, ih]

/-! Slice and pagination lemmas. -/

theorem mem_pySlice {α : Type} (x : α) (l : List α) (a b : Int)
    (h : x ∈ pySlice l a b) : x ∈ l := by
  unfold pySlice at h
  exact List.drop_subset _ _ (List.take_subset _ _ h)

theorem paginateList_eq_error {α : Type} (l : List α) (page limit : Int) (e : PyErr)
    (h : paginateList l page limit = .error e) : limit = 0 := by
  by_cases hl : limit = 0
  · exact hl
  · simp [paginateList, hl] at h

theorem paginateList_items {α : Type} (l : List α) (page limit : Int)
    (r : PageResult α) (h : paginateList l page limit = .ok r) :
    r.items = pySlice l ((page - 1) * limit) ((page - 1) * limit + limit) ∧
      r.pagination.limit = limit := by
  by_cases hl : limit = 0
  · simp [paginateList, hl] at h
  · simp only [paginateList, if_neg hl, Except.ok.injEq] at h
    subst h
    exact ⟨rfl, rfl⟩

/-! Created-record field lemmas. -/

theorem dictGet_createdRecord (ct i now : String) (data : Dict) (hwf : DictWF data)
    (k : String) :
    dictGet (createdRecord ct i now data) k =
      (((dictGet data k).or (dictGet
          [("id", Value.str i), ("content_type", .str ct),
           ("created_at", .str now), ("updated_at", .str now),
           ("status", .str "published")] k)).or
        (if k = "image_url" then some (.str "") else none)).or
      (if k = "short_description" then some (.str "") else none) := by
  unfold createdRecord cleanItemData
  rw [dictGet_dictSetdefault, dictGet_dictSetdefault, dictGet_dictSetMany _ _ _ hwf]

/-!
Claim theorems.
-/

/-- C1: cross-type isolation of reads — for distinct content types `A ≠ B`
and an id `X` whose stored record has `content_type = A`,
`get_item_by_id` on a repository scoped to `B` returns `None`, even though
a record with key `X` exists in the shared table. -/
theorem claim1_cross_type_isolation (A B X : String) (store : Store)
    (hAB : A ≠ B)
    (hstored : (storeLookup store X).bind (fun r => dictGet r "content_type") =
      some (Value.str A)) :
    getItemById B store X = none := by
  unfold getItemById
  cases h : storeLookup store X with
  | none => rfl
  | some item =>
      rw [h] at hstored
      simp only [Option.some_bind] at hstored
      have hne : ¬ (dictGet item "content_type" == some (Value.str B)) = true := by
        intro hc
        have hesq := beq_iff_eq.mp hc
        rw [hstored] at hesq
        exact hAB (by simpa using Option.some.inj hesq)
      show (if (dictGet item "content_type" == some (Value.str B)) = true then
          some (cleanOutputData item) else none) = none
      rw [if_neg hne]

/-- Witness for C1: the news record `pubRec` (id `p1`) is invisible to a
gallery-scoped repository. -/
theorem claim1_witness : getItemById "gallery" [pubRec] "p1" = none :=
  claim1_cross_type_isolation "news" "gallery" "p1" [pubRec]
    (by decide) (by decide)

/-- C5: category validity — `validate_category_value T C` is true iff `C`
is empty or a member of `get_allowed_categories T`, and an unknown content
type (lowercase form neither `news` nor `gallery`) has an empty allowed
list instead of an error. -/
theorem claim5_category_validity :
    (∀ T C : String, validateCategoryValue T C = true ↔
        (C = "" ∨ C ∈ getAllowedCategories T)) ∧
    (∀ T : String, pyLower T ≠ "news" → pyLower T ≠ "gallery" →
        getAllowedCategories T = []) := by
  constructor
  · intro T C
    unfold validateCategoryValue
    by_cases hc : C = ""
    · simp [hc]
    · simp [hc]
  · intro T h1 h2
    unfold getAllowedCategories
    rw [if_neg h1, if_neg h2]

/-- Witness for C5 at the unknown type `blog` and a concrete category. -/
theorem claim5_witness :
    (validateCategoryValue "news" "기타" = true ↔
      ("기타" = "" ∨ "기타" ∈ getAllowedCategories "news")) ∧
    getAllowedCategories "blog" = [] :=
  ⟨claim5_category_validity.1 "news" "기타",
   claim5_category_validity.2 "blog" (by decide) (by decide)⟩

/-- C6: not-found is an absent/false return, never an exception — for an id
with no record in the repository's scope, `update_item` and `delete_item`
return `False` and leave the table unchanged (`get_item_by_id = none` being
the absent read), and deleting the same id twice returns `False` the second
time. -/
theorem claim6_not_found_semantics (ct now itemId : String) (data : Dict)
    (store store' : Store) :
    (getItemById ct store itemId = none →
       updateItem ct now store itemId data = (false, store) ∧
       deleteItem ct store itemId = (false, store)) ∧
    (deleteItem ct store itemId = (true, store') →
       deleteItem ct store' itemId = (false, store')) := by
  constructor
  · intro h
    constructor
    · unfold updateItem; rw [h]
    · unfold deleteItem; rw [h]
  · intro h
    unfold deleteItem at h
    cases hg : getItemById ct store itemId with
    | none =>
        rw [hg] at h
        exact absurd (congrArg Prod.fst h) (by simp)
    | some item =>
        rw [hg] at h
        obtain ⟨-, h2⟩ := Prod.mk.inj h
        subst h2
        unfold deleteItem
        have hnone : getItemById ct (storeErase store itemId) itemId = none := by
          unfold getItemById
          rw [storeLookup_storeErase_self]
        rw [hnone]

/-- Witness for C6: a missing id gives a `False` update with the store
unchanged, and the second delete of `p1` gives `False`. -/
theorem claim6_witness :
    updateItem "news" "2025-02-02T00:00:00Z" [pubRec] "zz" [] = (false, [pubRec]) ∧
    deleteItem "news" [] "p1" = (false, []) :=
  ⟨((claim6_not_found_semantics "news" "2025-02-02T00:00:00Z" "zz" [] [pubRec] []).1
      (by decide)).1,
   (claim6_not_found_semantics "news" "2025-02-02T00:00:00Z" "p1" [] [pubRec] []).2
      (by decide)⟩

/-- Every record in the list `BaseCRUDService.list_items` paginates has
status `published`. -/
theorem mem_crudFilteredSorted_status (contentType : Option String) (store : Store)
    (category : Option String) (d : Dict)
    (hd : d ∈ crudFilteredSorted contentType store category) :
    dictGet d "status" = some (Value.str "published") := by
  simp only [crudFilteredSorted] at hd
  rw [mem_pySortByCreatedDesc] at hd
  have hpub : ∀ l : List Dict,
      d ∈ l.filter (fun r => dictGet r "status" == some (Value.str "published")) →
      dictGet d "status" = some (Value.str "published") := by
    intro l hl
    exact beq_iff_eq.mp (List.mem_filter.mp hl).2
  cases category with
  | none =>
      dsimp only at hd
      exact hpub _ hd
  | some c =>
      dsimp only at hd
      by_cases hc : c = ""
      · rw [if_pos hc] at hd
        exact hpub _ hd
      · rw [if_neg hc] at hd
        exact hpub _ (List.mem_filter.mp hd).1

/-- C2 fails on `BaseRepository.list_items`: the repository-level listing
has no status filter, so a `draft` record of the right content type is
returned. -/
theorem claim2_counterexample :
    ((repoListItems "news" [draftRec] 50 none none).items.map
      (fun d => dictGet d "status")) = [some (Value.str "draft")] := by decide

/-- C2 amended: it is the service-level listing (`BaseCRUDService`) whose
results are always `published` — for every store state, sample data and
arguments, both `list_items` (when it returns) and `get_recent_items`
yield only records with status `published`; the repository-level
`BaseRepository.list_items` filters only by content type and category. -/
theorem claim2_amended_service_published_only (contentType : Option String)
    (store : Store) (sample : List Dict) (page limit : Int)
    (category : Option String) :
    (∀ r, crudListItems contentType store sample page limit category = .ok r →
       ∀ d ∈ r.items, dictGet d "status" = some (Value.str "published")) ∧
    (∀ d ∈ crudGetRecentItems contentType store sample limit category,
       dictGet d "status" = some (Value.str "published")) := by
  have main : ∀ (pg : Int) (r : PageResult Dict),
      crudListItems contentType store sample pg limit category = .ok r →
      ∀ d ∈ r.items, dictGet d "status" = some (Value.str "published") := by
    intro pg r hok d hd
    unfold crudListItems at hok
    cases hp : paginateList (crudFilteredSorted contentType store category) pg limit with
    | ok r0 =>
        rw [hp] at hok
        have hr : r0 = r := Except.ok.inj hok
        subst hr
        have hitems := (paginateList_items _ pg limit r0 hp).1
        rw [hitems] at hd
        exact mem_crudFilteredSorted_status contentType store category d
          (mem_pySlice d _ _ _ hd)
    | error e =>
        rw [hp] at hok
        have h0 : limit = 0 := paginateList_eq_error _ pg limit e hp
        subst h0
        have : paginateList sample pg (0 : Int) = .error .zeroDivisionError := by
          simp [paginateList]
        rw [this] at hok
        cases hok
  refine ⟨fun r hok => main page r hok, ?_⟩
  intro d hd
  unfold crudGetRecentItems at hd
  cases hq : crudListItems contentType store sample 1 limit category with
  | ok r0 =>
      rw [hq] at hd
      exact main 1 r0 hq d hd
  | error e =>
      rw [hq] at hd
      have h0 : limit = 0 := by
        unfold crudListItems at hq
        cases hp : paginateList (crudFilteredSorted contentType store category) 1 limit with
        | ok r1 => rw [hp] at hq; cases hq
        | error e1 =>
            rw [hp] at hq
            exact paginateList_eq_error sample 1 limit e hq
      subst h0
      have : pySlice sample (0 : Int) (0 : Int) = [] := by
        simp [pySlice]
      rw [this] at hd
      cases hd

/-- Witness for the amended C2 at a concrete store. -/
theorem claim2_witness :
    dictGet pubRec "status" = some (Value.str "published") :=
  (claim2_amended_service_published_only (some "news") [pubRec] [] 1 10 none).2
    pubRec (by decide)

/-- Keys of the update-expression clauses built from `data` are whitelisted
fields actually present in `data`. -/
theorem updates_keys_subset (data : Dict) (k : String)
    (h : k ∈ (updatableFields.filterMap
        (fun f => (dictGet data f).map (fun v => (f, v)))).map Prod.fst) :
    k ∈ updatableFields ∧ ∃ v, dictGet data k = some v := by
  simp only [List.mem_map, List.mem_filterMap] at h
  obtain ⟨p, ⟨f, hf, hfe⟩, hfst⟩ := h
  cases hv : dictGet data f with
  | none => rw [hv] at hfe; cases hfe
  | some v =>
      rw [hv] at hfe
      have hp : p = (f, v) := (Option.some.inj hfe).symm
      subst hp
      subst hfst
      exact ⟨hf, v, hv⟩

/-- C4: update no-op short-circuit and frame — on an existing id, an update
whose data has no whitelisted field returns `True` without touching the
table; in general update returns `True`, rewrites only `updated_at` plus
the whitelisted fields present in the data on the targeted record, and
leaves every other record untouched. -/
theorem claim4_update_noop_and_frame (ct now itemId : String) (store : Store)
    (data : Dict) (hex : getItemById ct store itemId ≠ none) :
    ((∀ f ∈ updatableFields, dictGet data f = none) →
       updateItem ct now store itemId data = (true, store)) ∧
    ((updateItem ct now store itemId data).1 = true ∧
     (∀ k, k ≠ "updated_at" → (k ∈ updatableFields → dictGet data k = none) →
        storeFieldOf (updateItem ct now store itemId data).2 itemId k =
          storeFieldOf store itemId k) ∧
     (∀ j, j ≠ itemId →
        storeLookup (updateItem ct now store itemId data).2 j =
          storeLookup store j)) := by
  obtain ⟨item0, hg⟩ : ∃ it, getItemById ct store itemId = some it := by
    cases h : getItemById ct store itemId with
    | none => exact absurd h hex
    | some it => exact ⟨it, rfl⟩
  have hupd : updateItem ct now store itemId data =
      (if (updatableFields.filterMap
            (fun f => (dictGet data f).map (fun v => (f, v)))).isEmpty
       then (true, store)
       else (true, storeUpdateRecord store itemId
          (("updated_at", Value.str now) ::
            updatableFields.filterMap (fun f => (dictGet data f).map (fun v => (f, v)))))) := by
    unfold updateItem
    rw [hg]
  constructor
  · intro h
    have hnil : updatableFields.filterMap
        (fun f => (dictGet data f).map (fun v => (f, v))) = [] := by
      apply List.filterMap_eq_nil_iff.mpr
      intro f hf
      rw [h f hf]
      rfl
    rw [hupd, hnil]
    rfl
  · by_cases hempty : (updatableFields.filterMap
        (fun f => (dictGet data f).map (fun v => (f, v)))).isEmpty = true
    · rw [hupd, if_pos hempty]
      exact ⟨rfl, fun k _ _ => rfl, fun j _ => rfl⟩
    · rw [hupd, if_neg hempty]
      have hclid : "id" ∉ (("updated_at", Value.str now) ::
          updatableFields.filterMap
            (fun f => (dictGet data f).map (fun v => (f, v)))).map Prod.fst := by
        intro hmem
        simp only [List.map_cons, List.mem_cons] at hmem
        cases hmem with
        | inl h => exact absurd h (by decide)
        | inr h => exact absurd (updates_keys_subset data "id" h).1 (by decide)
      refine ⟨rfl, ?_, ?_⟩
      · intro k hk hkw
        unfold storeFieldOf
        rw [storeLookup_storeUpdateRecord store itemId itemId _ hclid]
        obtain ⟨rec, hrec⟩ : ∃ rec, storeLookup store itemId = some rec := by
          unfold getItemById at hg
          cases hsl : storeLookup store itemId with
          | none => rw [hsl] at hg; cases hg
          | some rec => exact ⟨rec, rfl⟩
        rw [hrec]
        have hhas : hasId rec itemId = true := storeLookup_hasId store itemId rec hrec
        simp only [Option.map_some', if_pos hhas, Option.some_bind]
        apply dictGet_dictSetMany_not_mem
        intro hmem
        simp only [List.map_cons, List.mem_cons] at hmem
        cases hmem with
        | inl h => exact hk h
        | inr h =>
            obtain ⟨hwl, v, hv⟩ := updates_keys_subset data k h
            rw [hkw hwl] at hv
            cases hv
      · intro j hj
        rw [storeLookup_storeUpdateRecord store itemId j _ hclid]
        cases hslj : storeLookup store j with
        | none => rfl
        | some rj =>
            have hhasj : hasId rj j = true := storeLookup_hasId store j rj hslj
            have hrid : dictGet rj "id" = some (Value.str j) := beq_iff_eq.mp hhasj
            have hno : hasId rj itemId = false :=
              hasId_eq_false_of_ne rj itemId j hrid hj
            simp only [Option.map_some', hno]
            rw [if_neg (by simp [hno])]

/-- Witness for C4: updating `p1` with a non-whitelisted field alone
returns `True` and leaves the table unchanged. -/
theorem claim4_witness :
    updateItem "news" "2025-03-03T00:00:00Z" [pubRec] "p1"
      [("file_url", .str "u")] = (true, [pubRec]) :=
  (claim4_update_noop_and_frame "news" "2025-03-03T00:00:00Z" "p1" [pubRec]
      [("file_url", .str "u")] (by decide)).1 (by decide)

/-- A field present in the creation data is stored verbatim in the created
record (`**data` is merged last, after the generated defaults). -/
theorem dictGet_createdRecord_of_data (ct i now : String) (data : Dict)
    (hwf : DictWF data) (k : String) (v : Value)
    (h : dictGet data k = some v) :
    dictGet (createdRecord ct i now data) k = some v := by
  rw [dictGet_createdRecord ct i now data hwf k, h]
  rfl

/-- C10 (implicit): in `create_item` the caller data is merged after the
generated defaults, so a data-supplied `id` wins — the record is stored
under data's id while the function returns the generated id, and a lookup
of the returned id finds nothing. -/
theorem claim10_create_data_overrides (ct genId now otherId : String)
    (data : Dict) (store : Store)
    (hwf : DictWF data)
    (hid : dictGet data "id" = some (Value.str otherId))
    (hne : otherId ≠ genId)
    (hfresh : storeLookup store genId = none) :
    (createItem ct genId now data none store).1 = genId ∧
    (∀ k v, dictGet data k = some v →
       storeFieldOf (createItem ct genId now data none store).2 otherId k = some v) ∧
    getItemById ct (createItem ct genId now data none store).2 genId = none := by
  have hrecid : dictGet (createdRecord ct genId now data) "id" =
      some (Value.str otherId) :=
    dictGet_createdRecord_of_data ct genId now data hwf "id" _ hid
  refine ⟨rfl, ?_, ?_⟩
  · intro k v hk
    show ((storeLookup (storePut store (createdRecord ct genId now data)) otherId).bind
        (fun r => dictGet r k)) = some v
    rw [storeLookup_storePut_self store _ otherId hrecid]
    simp only [Option.some_bind]
    exact dictGet_createdRecord_of_data ct genId now data hwf k v hk
  · show getItemById ct (storePut store (createdRecord ct genId now data)) genId = none
    unfold getItemById
    rw [storeLookup_storePut_ne store _ genId otherId hrecid (fun e => hne e.symm),
      hfresh]

/-- Witness for C10 with a concrete data dict supplying `id = custom`. -/
theorem claim10_witness :
    (createItem "news" "gen" "2025-01-01T00:00:00Z" dataWithId none []).1 = "gen" ∧
    storeFieldOf (createItem "news" "gen" "2025-01-01T00:00:00Z" dataWithId none []).2
      "custom" "title" = some (.str "t") ∧
    getItemById "news"
      (createItem "news" "gen" "2025-01-01T00:00:00Z" dataWithId none []).2 "gen" =
      none := by
  have h := claim10_create_data_overrides "news" "gen" "2025-01-01T00:00:00Z" "custom"
    dataWithId [] (by decide) (by decide) (by decide) (by decide)
  exact ⟨h.1, h.2.1 "title" (.str "t") (by decide), h.2.2⟩

/-- C3 fails on the code: a gallery item's `file_url`, `file_name`,
`file_size` are dropped by `_clean_output_data` on retrieval (and the
returned item carries no `content_type` either), so create-then-get does
not return every field of the input. -/
theorem claim3_counterexample :
    ((getItemById "gallery"
        (createItem "gallery" "gid" "2025-01-01T00:00:00Z" galleryData none []).2
        (createItem "gallery" "gid" "2025-01-01T00:00:00Z" galleryData none []).1).map
      (fun d => (dictGet d "file_url", dictGet d "file_name", dictGet d "file_size",
        dictGet d "content_type"))) = some (none, none, none, none) := by decide

/-- C3 amended: `create_item` stores every input field verbatim and
returns the generated id, but `get_item_by_id` returns only the fixed
projection keys: `id`, `status = published`, both timestamps, the five
whitelisted text fields (defaulted to the empty string) and `date`.
Fields outside the projection — `content_type` and any passthrough field
such as `file_url` — are absent from the returned item even though they
sit in the stored record. -/
theorem claim3_amended_round_trip (ct genId now : String) (data : Dict)
    (store : Store)
    (hwf : DictWF data)
    (h1 : dictGet data "id" = none)
    (h2 : dictGet data "content_type" = none)
    (h3 : dictGet data "status" = none)
    (h4 : dictGet data "created_at" = none)
    (h5 : dictGet data "updated_at" = none) :
    (createItem ct genId now data none store).1 = genId ∧
    (∀ k v, dictGet data k = some v →
       storeFieldOf (createItem ct genId now data none store).2 genId k = some v) ∧
    (∃ out, getItemById ct (createItem ct genId now data none store).2 genId =
        some out ∧
      dictGet out "id" = some (.str genId) ∧
      dictGet out "content_type" = none ∧
      dictGet out "status" = some (.str "published") ∧
      dictGet out "created_at" = some (.str now) ∧
      dictGet out "updated_at" = some (.str now) ∧
      (∀ k, k ∈ updatableFields →
         dictGet out k = some ((dictGet data k).getD (.str ""))) ∧
      (∀ k, k ∉ outputFields → dictGet out k = none)) := by
  set rec := createdRecord ct genId now data with hrec
  have hrecid : dictGet rec "id" = some (Value.str genId) := by
    rw [hrec, dictGet_createdRecord ct genId now data hwf, h1]
    rfl
  have hrecct : dictGet rec "content_type" = some (Value.str ct) := by
    rw [hrec, dictGet_createdRecord ct genId now data hwf, h2]
    rfl
  have hrecst : dictGet rec "status" = some (Value.str "published") := by
    rw [hrec, dictGet_createdRecord ct genId now data hwf, h3]
    rfl
  have hrecca : dictGet rec "created_at" = some (Value.str now) := by
    rw [hrec, dictGet_createdRecord ct genId now data hwf, h4]
    rfl
  have hrecua : dictGet rec "updated_at" = some (Value.str now) := by
    rw [hrec, dictGet_createdRecord ct genId now data hwf, h5]
    rfl
  have hlook : storeLookup (storePut store rec) genId = some rec :=
    storeLookup_storePut_self store rec genId hrecid
  refine ⟨rfl, ?_, ?_⟩
  · intro k v hk
    show ((storeLookup (storePut store rec) genId).bind
        (fun r => dictGet r k)) = some v
    rw [hlook]
    simp only [Option.some_bind]
    rw [hrec]
    exact dictGet_createdRecord_of_data ct genId now data hwf k v hk
  · have hget : getItemById ct (storePut store rec) genId =
        some (cleanOutputData rec) := by
      unfold getItemById
      rw [hlook]
      show (if (dictGet rec "content_type" == some (Value.str ct)) = true then
          some (cleanOutputData rec) else none) = some (cleanOutputData rec)
      rw [if_pos (beq_iff_eq.mpr hrecct)]
    refine ⟨cleanOutputData rec, hget, ?_, ?_, ?_, ?_, ?_, ?_, ?_⟩
    · rw [show dictGet (cleanOutputData rec) "id" =
          some (dictGetD rec "id" (.str "")) from rfl, dictGetD, hrecid]
      rfl
    · rfl
    · rw [show dictGet (cleanOutputData rec) "status" =
          some (dictGetD rec "status" (.str "")) from rfl, dictGetD, hrecst]
      rfl
    · rw [show dictGet (cleanOutputData rec) "created_at" =
          some (dictGetD rec "created_at" (.str "")) from rfl, dictGetD, hrecca]
      rfl
    · rw [show dictGet (cleanOutputData rec) "updated_at" =
          some (dictGetD rec "updated_at" (.str "")) from rfl, dictGetD, hrecua]
      rfl
    · intro k hk
      fin_cases hk
      · rw [show dictGet (cleanOutputData rec) "title" =
            some (dictGetD rec "title" (.str "")) from rfl, dictGetD, hrec,
          dictGet_createdRecord ct genId now data hwf "title"]
        cases dictGet data "title" <;> rfl
      · rw [show dictGet (cleanOutputData rec) "content" =
            some (dictGetD rec "content" (.str "")) from rfl, dictGetD, hrec,
          dictGet_createdRecord ct genId now data hwf "content"]
        cases dictGet data "content" <;> rfl
      · rw [show dictGet (cleanOutputData rec) "category" =
            some (dictGetD rec "category" (.str "")) from rfl, dictGetD, hrec,
          dictGet_createdRecord ct genId now data hwf "category"]
        cases dictGet data "category" <;> rfl
      · rw [show dictGet (cleanOutputData rec) "image_url" =
            some (dictGetD rec "image_url" (.str "")) from rfl, dictGetD, hrec,
          dictGet_createdRecord ct genId now data hwf "image_url"]
        cases dictGet data "image_url" <;> rfl
      · rw [show dictGet (cleanOutputData rec) "short_description" =
            some (dictGetD rec "short_description" (.str "")) from rfl, dictGetD, hrec,
          dictGet_createdRecord ct genId now data hwf "short_description"]
        cases dictGet data "short_description" <;> rfl
    · intro k hk
      simp only [outputFields, List.mem_cons, List.mem_singleton, not_or] at hk
      obtain ⟨n1, n2, n3, n4, n5, n6, n7, n8, n9, n10, -⟩ := hk
      show dictGet (cleanOutputData rec) k = none
      simp [cleanOutputData, dictGet, Ne.symm n1, Ne.symm n2, Ne.symm n3,
        Ne.symm n4, Ne.symm n5, Ne.symm n6, Ne.symm n7, Ne.symm n8,
        Ne.symm n9, Ne.symm n10]

/-- Witness for the amended C3 with the concrete gallery input. -/
theorem claim3_witness :
    storeFieldOf
      (createItem "gallery" "gid" "2025-01-01T00:00:00Z" galleryData none []).2
      "gid" "file_url" = some (.str "https://b.s3.amazonaws.com/up/x.jpg") :=
  (claim3_amended_round_trip "gallery" "gid" "2025-01-01T00:00:00Z" galleryData []
      (by decide) (by decide) (by decide) (by decide) (by decide) (by decide)).2.1
    "file_url" (.str "https://b.s3.amazonaws.com/up/x.jpg") (by decide)

/-- C7 fails on the code: the service-level list neither validates the page
nor clamps the limit — `page = 0` returns normally (an `.ok` result) and a
request of 60 items returns all 60. -/
theorem claim7_counterexample :
    (crudListItems (some "news") sixtyNews [] 0 10 none).isOk = true ∧
    ((crudListItems (some "news") sixtyNews [] 1 60 none).toOption.map
      (fun r => r.items.length)) = some 60 := by decide

/-- C7 amended: `BaseCRUDService.list_items` performs no page validation
and no limit clamping — every call with a nonzero limit returns an `.ok`
result (page values below 1 included) whose pagination carries the
requested limit verbatim; the `page >= 1` check and the hard ceiling of 50
exist only in the standalone helper `validate_pagination_params`, which no
list code path calls: that helper raises `ValidationError` for a nonzero
page below 1 (an integer page of 0 is treated as unspecified and defaults
to 1) and clamps a limit above 50 down to 50. -/
theorem claim7_amended_no_validation (contentType : Option String) (store : Store)
    (sample : List Dict) (category : Option String) (page limit : Int) :
    (limit ≠ 0 → ∃ r, crudListItems contentType store sample page limit category =
        .ok r ∧ r.pagination.limit = limit) ∧
    (page < 0 → validatePaginationParams (some page) (some limit) =
        .error (.validationError "Page must be greater than 0")) ∧
    (1 ≤ page → 50 < limit →
        validatePaginationParams (some page) (some limit) = .ok (page, 50)) := by
  refine ⟨?_, ?_, ?_⟩
  · intro hl
    unfold crudListItems
    cases hp : paginateList (crudFilteredSorted contentType store category)
        page limit with
    | ok r =>
        exact ⟨r, rfl, (paginateList_items _ page limit r hp).2⟩
    | error e =>
        exact absurd (paginateList_eq_error _ page limit e hp) hl
  · intro hp
    have hpz : page ≠ 0 := by omega
    simp only [validatePaginationParams]
    rw [if_neg hpz, if_pos (by omega : page < 1)]
  · intro hp1 hp50
    have hpz : page ≠ 0 := by omega
    have hlz : limit ≠ 0 := by omega
    simp only [validatePaginationParams]
    rw [if_neg hpz, if_neg hlz, if_neg (by omega : ¬ page < 1),
      if_neg (by omega : ¬ limit < 1), if_pos hp50]

/-- Witness for the amended C7 at concrete arguments. -/
theorem claim7_witness :
    (∃ r, crudListItems (some "news") [pubRec] [] 0 10 none = .ok r ∧
        r.pagination.limit = 10) ∧
    validatePaginationParams (some (-1)) (some 10) =
      .error (.validationError "Page must be greater than 0") ∧
    validatePaginationParams (some 2) (some 100) = .ok (2, 50) :=
  ⟨(claim7_amended_no_validation (some "news") [pubRec] [] none 0 10).1 (by decide),
   (claim7_amended_no_validation (some "news") [pubRec] [] none (-1) 10).2.1 (by decide),
   (claim7_amended_no_validation (some "news") [pubRec] [] none 2 100).2.2
     (by decide) (by decide)⟩

/-- The map built by setting every key of `l` to the same value holds that
value at exactly the keys of `l` (and is untouched elsewhere). -/
theorem isSome_dictGet_foldl_setdefault (l : List String)
    (acc : List (String × Bool)) (k : String)
    (hk : k ∈ l ∨ (dictGet acc k).isSome = true) :
    (dictGet (l.foldl
        (fun a k' =>
          match dictGet a k' with
          | some _ => a
          | none => dictSet a k' false)
        acc) k).isSome = true := by
  induction l generalizing acc with
  | nil =>
      cases hk with
      | inl h => cases h
      | inr h => exact h
  | cons x xs ih =>
      rw [List.foldl_cons]
      apply ih
      cases hk with
      | inl hmem =>
          cases List.mem_cons.mp hmem with
          | inl hx =>
              subst hx
              right
              cases hax : dictGet acc k with
              | some b => simp [hax]
              | none => simp [hax, dictGet_dictSet_self]
          | inr hxs => exact Or.inl hxs
      | inr hsome =>
          right
          cases hax : dictGet acc x with
          | some b => simpa [hax] using hsome
          | none => exact isSome_dictGet_dictSet acc x k false hsome

/-- C8: `delete_files` is total and non-throwing — for every key list and
every storage response (a per-key report or a `ClientError`), the result
map has a boolean entry for every input key; failures become `False`
entries, never exceptions, and no key's failure suppresses the others'
entries. -/
theorem claim8_delete_files_total (fileKeys : List String)
    (resp : Except Unit S3DeleteResponse) (k : String) (hk : k ∈ fileKeys) :
    (dictGet (deleteFiles fileKeys resp) k).isSome = true := by
  have hne : fileKeys ≠ [] := by
    intro h
    rw [h] at hk
    cases hk
  unfold deleteFiles
  rw [if_neg hne]
  cases resp with
  | error u =>
      rw [dictGet_foldl_set_const]
      simp [hk]
  | ok r =>
      exact isSome_dictGet_foldl_setdefault fileKeys _ k (Or.inl hk)

/-- Witness for C8: a batch where `a` succeeded, `b` errored and `c` went
unreported still has entries for all three keys. -/
theorem claim8_witness :
    (dictGet (deleteFiles ["a", "b", "c"]
        (.ok { deleted := ["a"], errors := ["b"] })) "c").isSome = true :=
  claim8_delete_files_total ["a", "b", "c"]
    (.ok { deleted := ["a"], errors := ["b"] }) "c" (by decide)

/-! Lemmas about substring search for the URL round trip. -/

theorem isPrefixOf_append_self (l r : List Char) : l.isPrefixOf (l ++ r) = true := by
  induction l with
  | nil =>
      rw [List.nil_append]
      cases r with
      | nil => rfl
      | cons c cs => rfl
  | cons a as ih =>
      show ((a == a) && as.isPrefixOf (as ++ r)) = true
      rw [ih]
      simp

theorem getElem?_eq_of_isPrefixOf (p l : List Char) (h : p.isPrefixOf l = true)
    (j : Nat) (hj : j < p.length) : l[j]? = p[j]? := by
  induction p generalizing l j with
  | nil => exact absurd hj (Nat.not_lt_zero j)
  | cons a as ih =>
      cases l with
      | nil => exact absurd (show false = true from h) (by decide)
      | cons b bs =>
          have h2 : ((a == b) && as.isPrefixOf bs) = true := h
          rw [Bool.and_eq_true] at h2
          obtain ⟨hab, hrest⟩ := h2
          have hab' : a = b := beq_iff_eq.mp hab
          cases j with
          | zero => simp [hab']
          | succ n =>
              simp only [List.getElem?_cons_succ]
              exact ih bs hrest n (Nat.lt_of_succ_lt_succ hj)

/-- When no occurrence of `pat` starts inside `pre`, `split(pat, 1)` cuts
exactly at the occurrence following `pre`. -/
theorem splitOnce_first_occurrence (pre pat rest : List Char)
    (hno : ∀ i, i < pre.length →
      (pat.isPrefixOf ((pre ++ (pat ++ rest)).drop i)) = false) :
    splitOnce (pre ++ (pat ++ rest)) pat = some (pre, rest) := by
  induction pre with
  | nil =>
      show splitOnce (pat ++ rest) pat = some ([], rest)
      unfold splitOnce
      rw [if_pos (isPrefixOf_append_self pat rest), List.drop_left]
  | cons c cs ih =>
      have h0 : (pat.isPrefixOf (c :: (cs ++ (pat ++ rest)))) = false :=
        hno 0 (Nat.succ_pos cs.length)
      show splitOnce (c :: (cs ++ (pat ++ rest))) pat = some (c :: cs, rest)
      unfold splitOnce
      rw [if_neg (by intro hc; rw [h0] at hc; exact Bool.false_ne_true hc)]
      have hrec : splitOnce (cs ++ (pat ++ rest)) pat = some (cs, rest) := by
        apply ih
        intro i hi
        exact hno (i + 1) (Nat.succ_lt_succ hi)
      show ((splitOnce (cs ++ (pat ++ rest)) pat).map
          (fun p => (c :: p.1, p.2))) = some (c :: cs, rest)
      rw [hrec]
      rfl

/-- No occurrence of `f"{bucket}.s3.amazonaws.com/"` can start inside the
`https://` scheme, because the marker's first slash sits at least 17
characters in while every suffix of `https://` has one within 8. -/
theorem marker_not_prefix_in_scheme (bucket key : List Char) (hb : '/' ∉ bucket) :
    ∀ i, i < ("https://".data).length →
      ((bucket ++ s3HostMarker).isPrefixOf
        (("https://".data ++ ((bucket ++ s3HostMarker) ++ key)).drop i)) = false := by
  intro i hi
  have hlen : ("https://".data).length = 8 := by decide
  rw [hlen] at hi
  apply Bool.eq_false_iff.mpr
  intro hpre
  have hmlen : (bucket ++ s3HostMarker).length = bucket.length + 18 := by
    rw [List.length_append, show (s3HostMarker).length = 18 from by decide]
  have hj : 7 - i < (bucket ++ s3HostMarker).length := by omega
  have hElem := getElem?_eq_of_isPrefixOf _ _ hpre (7 - i) hj
  rw [List.getElem?_drop] at hElem
  have hidx : i + (7 - i) = 7 := by omega
  rw [hidx] at hElem
  have hslash : ("https://".data ++ ((bucket ++ s3HostMarker) ++ key))[7]? =
      some '/' := by
    rw [List.getElem?_append_left (by rw [hlen]; omega)]
    decide
  rw [hslash] at hElem
  by_cases hcase : 7 - i < bucket.length
  · rw [List.getElem?_append_left hcase] at hElem
    exact hb (List.getElem?_mem hElem.symm)
  · push_neg at hcase
    rw [List.getElem?_append_right hcase] at hElem
    have hle : 7 - i - bucket.length ≤ 7 := by omega
    generalize hgen : 7 - i - bucket.length = m at hElem hle
    interval_cases m <;> exact absurd hElem.symm (by decide)

/-- The URL issued for a key maps back to exactly that key. -/
theorem extract_fileUrl (bucket key : List Char) (hb : '/' ∉ bucket) :
    extractFileKeyFromUrl bucket (fileUrlFor bucket key) = some key := by
  have hsplit : splitOnce ("https://".data ++ ((bucket ++ s3HostMarker) ++ key))
      (bucket ++ s3HostMarker) = some ("https://".data, key) :=
    splitOnce_first_occurrence _ _ _ (marker_not_prefix_in_scheme bucket key hb)
  have hurl : fileUrlFor bucket key =
      "https://".data ++ ((bucket ++ s3HostMarker) ++ key) := by
    simp [fileUrlFor, List.append_assoc]
  have hne : "https://".data ++ ((bucket ++ s3HostMarker) ++ key) ≠ [] := by
    intro h
    have hlen := congrArg List.length h
    rw [List.length_append, show ("https://".data).length = 8 from by decide] at hlen
    simp at hlen
  unfold extractFileKeyFromUrl
  rw [hurl, if_neg hne, hsplit]

/-- C9 fails on the code: `extract_file_key_from_url` matches by substring
containment, so a URL matching neither of the deployment's URL patterns
(it does not even start with `https://`) still yields a key. -/
theorem claim9_counterexample :
    matchesVirtualHostPattern "mb".data "xmb.s3.amazonaws.com/k".data = false ∧
    matchesPathStylePattern "mb".data "xmb.s3.amazonaws.com/k".data = false ∧
    extractFileKeyFromUrl "mb".data "xmb.s3.amazonaws.com/k".data =
      some "k".data := by decide

/-- C9 amended: the round trip holds — for every generated upload URL,
`extract_file_key_from_url` recovers exactly the generated `file_key`
(assuming the configured bucket name contains no slash) — but the "no
match" half must be weakened from pattern matching to substring
containment: the extractor returns `None` iff the URL is empty or contains
neither `f"{bucket}.s3.amazonaws.com/"` nor
`f"s3.amazonaws.com/{bucket}/"` as a substring; URLs containing a marker
without matching the full `https://` pattern still yield a key. -/
theorem claim9_amended_url_round_trip (bucket folder timestamp uniqueId : List Char)
    (ext : Option (List Char)) (url : List Char) (hb : '/' ∉ bucket) :
    extractFileKeyFromUrl bucket
        (generatePresignedUploadUrl bucket folder timestamp uniqueId ext).2 =
      some (generatePresignedUploadUrl bucket folder timestamp uniqueId ext).1 ∧
    (extractFileKeyFromUrl bucket url = none ↔
      (url = [] ∨ (containsSub url (bucket ++ s3HostMarker) = false ∧
        containsSub url ("s3.amazonaws.com/".data ++ bucket ++ ['/']) = false))) := by
  constructor
  · exact extract_fileUrl bucket _ hb
  · unfold extractFileKeyFromUrl containsSub
    by_cases hu : url = []
    · simp [hu]
    · rw [if_neg hu]
      cases h1 : splitOnce url (bucket ++ s3HostMarker) with
      | some p =>
          obtain ⟨a, b⟩ := p
          simp [h1, hu]
      | none =>
          cases h2 : splitOnce url ("s3.amazonaws.com/".data ++ bucket ++ ['/']) with
          | some q =>
              obtain ⟨a, b⟩ := q
              simp [h1, h2, hu]
          | none => simp [h1, h2, hu]

/-- Witness for the amended C9 at a concrete bucket, folder and extension. -/
theorem claim9_witness :
    extractFileKeyFromUrl "mb".data
      (generatePresignedUploadUrl "mb".data "uploads".data "20250101_000000".data
        "abcd1234".data (some ".jpg".data)).2 =
      some (generatePresignedUploadUrl "mb".data "uploads".data "20250101_000000".data
        "abcd1234".data (some ".jpg".data)).1 :=
  (claim9_amended_url_round_trip "mb".data "uploads".data "20250101_000000".data
      "abcd1234".data (some ".jpg".data) [] (by decide)).1

end LambdaBack
